import Mathlib

/-!
# Verification of the NASA weather prediction climatology engine

Shallow embedding of `utils.ts` (the Record Parser, Location Adjuster,
MinMax Scaler, Linear Algebra Kernel, OLS Trainer and Generative
Forecaster) and proofs of the specified properties.

Modelling conventions:
* JavaScript numbers at the parsing boundary are modelled by `JSNum`
  (an exact rational, or one of the non-finite values `nan`, `inf`,
  `negInf`), because the parser's behaviour on non-finite parses is
  observable.  Inside the data-science engine all arithmetic is
  embedded over `ℚ` (exact arithmetic); binary floating-point rounding
  is not modelled.
* `Math.sin`/`Math.cos` of the cyclical encoding, and the random noise
  of the Location Adjuster, are transcendental / nondeterministic host
  functions; they are abstracted as oracle parameters.  No verified
  property depends on their values.
* The JavaScript `Map` (insertion-ordered, set/get/has) is modelled by
  `JsMap`, an insertion-ordered association list.
-/

namespace NasaWeather

/-- A JavaScript number as observable by the parser: an exact finite
rational, or `NaN`, `Infinity`, `-Infinity`. -/
inductive JSNum where
  | num (q : ℚ)
  | nan
  | inf
  | negInf
deriving DecidableEq, Repr

/-- `isNaN` on a `JSNum` (the source calls the global `isNaN` on an
already-converted number, so no further coercion happens). -/
def JSNum.isNaN : JSNum → Bool
  | .nan => true
  | _ => false

/-- A `JSNum` is finite when it is an actual rational. -/
def JSNum.isFinite : JSNum → Bool
  | .num _ => true
  | _ => false

/-- The whitespace characters removed by JS `String.prototype.trim`
(restricted to the ASCII subset; the exotic Unicode space characters
are irrelevant to this program's inputs). -/
def jsWhitespace (c : Char) : Bool :=
  c = ' ' || c = '\t' || c = '\n' || c = '\r' || c = '\x0b' || c = '\x0c'

/-- JS `String.prototype.trim` on a character list: drop leading and
trailing whitespace. -/
def jsTrim (cs : List Char) : List Char :=
  ((cs.dropWhile jsWhitespace).reverse.dropWhile jsWhitespace).reverse

/-- Split a character list at every character satisfying `p`, keeping
empty segments — the semantics of JS `split('\n')` and
`split(/[,\t]/)`.  The result is always non-empty. -/
def splitOnPred (p : Char → Bool) : List Char → List (List Char)
  | [] => [[]]
  | c :: cs =>
      match splitOnPred p cs with
      | [] => [[c]]
      | h :: t => if p c then [] :: h :: t else (c :: h) :: t

/-- Digit-string to natural number; `none` unless the string is a
non-empty run of decimal digits. -/
def digitsToNat (cs : List Char) : Option ℕ :=
  if cs = [] then none
  else if cs.all Char.isDigit then
    some (cs.foldl (fun n c => 10 * n + (c.toNat - 48)) 0)
  else none

/-- The unsigned body of a JS decimal string literal: `digits`,
`digits.digits`, `digits.` or `.digits` (at least one digit overall).
Exponent and non-decimal (hex/octal/binary) forms are outside the
fragment exercised by this program's inputs and map to `none` (= NaN),
as unrecognised text does in JS. -/
def parseDecimalBody (s : List Char) : Option ℚ :=
  match splitOnPred (fun c => c = '.') s with
  | [intPart] => (digitsToNat intPart).map (fun n => (n : ℚ))
  | [intPart, fracPart] =>
      if intPart = [] && fracPart = [] then none
      else
        let ip := if intPart = [] then some 0 else digitsToNat intPart
        let fp := if fracPart = [] then some 0 else digitsToNat fracPart
        match ip, fp with
        | some i, some f => some ((i : ℚ) + (f : ℚ) / (10 : ℚ) ^ fracPart.length)
        | _, _ => none
  | _ => none

/-- JS `ToNumber` applied to a string (the unary `+parts[k]` in the
parser): trims whitespace, the empty string is `0`, optional sign,
`Infinity` literals, decimal literals; anything else is `NaN`. -/
def jsToNumber (s : List Char) : JSNum :=
  let t := jsTrim s
  if t = [] then .num 0
  else
    let neg := "-".toList.isPrefixOf t
    let body := if neg || "+".toList.isPrefixOf t then t.drop 1 else t
    if body = "Infinity".toList then (if neg then .negInf else .inf)
    else
      match parseDecimalBody body with
      | some q => .num (if neg then -q else q)
      | none => .nan

/-- A parsed daily record at the parser boundary (source interface
`DailyWeather`), with raw JS-number fields: the parser only filters
out `NaN`s, so non-finite field values are representable. -/
structure DailyWeatherRaw where
  year : JSNum
  doy : JSNum
  tempRange : JSNum
  precip : JSNum
deriving DecidableEq, Repr

/-- One step of `parseNASAData`'s line loop.  State: `(headerFound,
accumulated records)`. -/
def parseStep (st : Bool × List DailyWeatherRaw) (line : List Char) :
    Bool × List DailyWeatherRaw :=
  let trimmed := jsTrim line
  if trimmed = [] then st
  else if trimmed = "-END HEADER-".toList then (true, st.2)
  else if !st.1 then st
  else if "YEAR,DOY".toList.isPrefixOf trimmed
       || "YEAR\tDOY".toList.isPrefixOf trimmed then st
  else
    let parts := splitOnPred (fun c => c = ',' || c = '\t') trimmed
    if parts.length ≥ 4 then
      let year := jsToNumber (parts.getD 0 [])
      let doy := jsToNumber (parts.getD 1 [])
      let tempRange := jsToNumber (parts.getD 2 [])
      let precip := jsToNumber (parts.getD 3 [])
      if !year.isNaN && !doy.isNaN && !tempRange.isNaN && !precip.isNaN then
        (st.1, st.2 ++ [⟨year, doy, tempRange, precip⟩])
      else st
    else st

/-- `parseNASAData(csvText)`: split on newlines and fold the line loop.
Total: the source never throws (it only trims, splits, converts and
compares). -/
def parseNASAData (csvText : String) : List DailyWeatherRaw :=
  ((splitOnPred (fun c => c = '\n') csvText.data).foldl parseStep (false, [])).2

/-- The sentinel that terminates the header region. -/
def endHeaderSentinel : List Char := "-END HEADER-".toList

/-- All four numeric fields of a record are non-NaN. -/
def DailyWeatherRaw.noNaN (r : DailyWeatherRaw) : Prop :=
  r.year.isNaN = false ∧ r.doy.isNaN = false ∧
  r.tempRange.isNaN = false ∧ r.precip.isNaN = false

/-! ## The data-science engine

From here on all numbers are embedded as exact rationals.  A
`DailyWeather` record (source interface `DailyWeather`) with finite
numeric fields. -/

structure DailyWeather where
  year : ℚ
  doy : ℚ
  tempRange : ℚ
  precip : ℚ
deriving DecidableEq, Repr

instance : Inhabited DailyWeather := ⟨⟨0, 0, 0, 0⟩⟩

/-- `list.map((x, i) => f(i, x))` starting at index `k` — a
recursion-friendly model of JS index-aware mapping. -/
def mapIdxFrom (f : ℕ → α → β) : ℕ → List α → List β
  | _, [] => []
  | k, a :: as => f k a :: mapIdxFrom f (k + 1) as

/-! ### Location Adjuster (`adjustDataForLocation`)

The source adds, per record, a noise term
`0.5·sin(0.1·doy) + (random − 0.5)·1.5` to the temperature and scales
precipitation by `0.8 + random·0.4`.  `Math.sin` and `Math.random` are
host transcendental/nondeterministic functions; they are abstracted by
the oracles `noise` (the whole per-record noise term) and
`precipFactor` (the whole per-record precipitation factor), indexed by
record position. -/

def adjustDataForLocation (noise precipFactor : ℕ → ℚ)
    (data : List DailyWeather) (baseLat newLat : ℚ) : List DailyWeather :=
  let latDiff := |newLat| - |baseLat|
  let tempChange := -(latDiff * 0.75)
  mapIdxFrom (fun i d =>
    let newTemp := d.tempRange + tempChange + noise i
    let newTemp2 := if newLat > 60 || newLat < -60 then newTemp - 5 else newTemp
    { d with tempRange := newTemp2,
             precip := max 0 (d.precip * precipFactor i) }) 0 data

/-! ### MinMax Scaler (`class MinMaxScaler`) -/

/-- `Math.min(...data)` over a spread list.  For the empty list JS
yields `+Infinity`, which has no rational counterpart; the placeholder
`0` is returned instead (no verified property depends on fitting an
empty list — the round-trip contract requires a non-empty fit). -/
def mathMin : List ℚ → ℚ
  | [] => 0
  | v :: vs => vs.foldl min v

/-- `Math.max(...data)`; empty-list placeholder as in `mathMin`. -/
def mathMax : List ℚ → ℚ
  | [] => 0
  | v :: vs => vs.foldl max v

/-- The scaler's fitted state: `{min, max}` (source fields of
`MinMaxScaler`, defaults 0 and 1). -/
structure MinMaxScaler where
  min : ℚ
  max : ℚ
deriving DecidableEq, Repr

/-- The freshly-constructed scaler (`min = 0`, `max = 1`). -/
def MinMaxScaler.initial : MinMaxScaler := ⟨0, 1⟩

/-- `fit(data)`: record min and max; widen a degenerate range to
`min + 1` to avoid division by zero. -/
def MinMaxScaler.fit (_s : MinMaxScaler) (data : List ℚ) : MinMaxScaler :=
  let mn := mathMin data
  let mx := mathMax data
  if mx = mn then ⟨mn, mn + 1⟩ else ⟨mn, mx⟩

/-- The function mapped by `transform`. -/
def MinMaxScaler.transformOne (s : MinMaxScaler) (x : ℚ) : ℚ :=
  (x - s.min) / (s.max - s.min)

/-- `transform(data)`. -/
def MinMaxScaler.transform (s : MinMaxScaler) (data : List ℚ) : List ℚ :=
  data.map s.transformOne

/-- `inverseTransform(val)`. -/
def MinMaxScaler.inverseTransform (s : MinMaxScaler) (val : ℚ) : ℚ :=
  val * (s.max - s.min) + s.min

/-! ### Linear Algebra Kernel

Matrices are lists of row lists.  JS out-of-range element reads yield
`undefined` (propagating as `NaN` through arithmetic); they are
modelled by `getD _ 0` defaults, and never occur for the shapes this
pipeline builds. -/

/-- `A[k][j]` with out-of-range defaulting. -/
def getEntry (A : List (List ℚ)) (k j : ℕ) : ℚ :=
  (A.getD k []).getD j 0

/-- Row `i` of the `n × n` identity matrix. -/
def idRow (n i : ℕ) : List ℚ :=
  (List.range n).map (fun j => if i = j then 1 else 0)

/-- The augmented matrix `[M | I]` built at the top of `inverse`. -/
def augment (M : List (List ℚ)) : List (List ℚ) :=
  mapIdxFrom (fun i row => row ++ idRow M.length i) 0 M

/-- The partial-pivot selection: the row in `i..n-1` whose column-`i`
entry has strictly largest absolute value (first occurrence wins, as
in the source's `>` comparison starting from `maxRow = i`). -/
def pivotRow (A : List (List ℚ)) (n i : ℕ) : ℕ :=
  (List.range' (i + 1) (n - (i + 1))).foldl
    (fun maxRow k =>
      if |getEntry A k i| > |getEntry A maxRow i| then k else maxRow) i

/-- The destructuring swap `[A[i], A[maxRow]] = [A[maxRow], A[i]]`. -/
def swapRows (A : List (List ℚ)) (i j : ℕ) : List (List ℚ) :=
  let ri := A.getD i []
  let rj := A.getD j []
  (A.set i rj).set j ri

/-- One iteration of the elimination loop of `inverse`: pivot
selection and swap, the `Math.abs(pivot) < 1e-10` *singularity check*
(which only `continue`s — it does not abort), row normalisation, and
elimination of column `i` from every other row. -/
def elimStep (n : ℕ) (A : List (List ℚ)) (i : ℕ) : List (List ℚ) :=
  let maxRow := pivotRow A n i
  let B := swapRows A i maxRow
  let pivot := getEntry B i i
  if |pivot| < 1 / 10 ^ 10 then B
  else
    let Bi := mapIdxFrom (fun j x => if i ≤ j then x / pivot else x) 0 (B.getD i [])
    let C := B.set i Bi
    mapIdxFrom (fun k row =>
      if k = i then row
      else
        let factor := row.getD i 0
        mapIdxFrom (fun j x => if i ≤ j then x - factor * Bi.getD j 0 else x) 0 row)
      0 C

/-- `inverse(M)`: Gauss-Jordan over the augmented matrix, then extract
the right half.  Total — there is no error path; rows whose pivot
falls below epsilon are silently skipped. -/
def inverse (M : List (List ℚ)) : List (List ℚ) :=
  let n := M.length
  ((List.range n).foldl (elimStep n) (augment M)).map (fun row => row.drop n)

/-! ### The JS `Map` model: an insertion-ordered association list with
`set` (replace-in-place or append) and `get`. -/

structure JsMap (α β : Type) where
  entries : List (α × β)
deriving DecidableEq, Repr

namespace JsMap
variable {α β : Type} [DecidableEq α]

/-- `new Map()`. -/
def empty : JsMap α β := ⟨[]⟩

/-- `map.has(k)`. -/
def has (m : JsMap α β) (k : α) : Bool :=
  m.entries.any (fun e => decide (e.1 = k))

/-- `map.get(k)` (`none` models `undefined`). -/
def get (m : JsMap α β) (k : α) : Option β :=
  (m.entries.find? (fun e => decide (e.1 = k))).map (fun e => e.2)

/-- `map.set(k, v)`: update the existing slot in place, else append. -/
def set (m : JsMap α β) (k : α) (v : β) : JsMap α β :=
  if m.has k then
    ⟨m.entries.map (fun e => if e.1 = k then (k, v) else e)⟩
  else ⟨m.entries ++ [(k, v)]⟩

/-- The key list, in insertion order. -/
def keys (m : JsMap α β) : List α := m.entries.map Prod.fst

/-- Recursive characterisation of association-list lookup, used to
reason about `get`. -/
def getEntries (k : α) : List (α × β) → Option β
  | [] => none
  | e :: es => if e.1 = k then some e.2 else getEntries k es

end JsMap

/-! ### Forecast Window Accessor (`getForecast`) -/

/-- One `ClimatologyDay` (source interface `Climatology`): the key and
`doy` are day-of-year loop integers, the statistics are rationals. -/
structure Climatology where
  doy : ℕ
  avgTemp : ℚ
  avgPrecip : ℚ
  count : ℕ
deriving DecidableEq, Repr

/-- The loop of `getForecast`, by remaining iteration count: wrap
`currentDoy > 366` back to 1, look the day up, keep it if present. -/
def getForecastGo (climatology : JsMap ℕ Climatology) : ℕ → ℕ → List Climatology
  | _, 0 => []
  | cur, n + 1 =>
      let cur2 := if cur > 366 then 1 else cur
      match climatology.get cur2 with
      | some c => c :: getForecastGo climatology (cur2 + 1) n
      | none => getForecastGo climatology (cur2 + 1) n

/-- `getForecast(climatology, startDoy, days)` (source default
`days = 7` is always passed explicitly here). -/
def getForecast (climatology : JsMap ℕ Climatology) (startDoy days : ℕ) :
    List Climatology :=
  getForecastGo climatology startDoy days

/-- The sequence of days the loop visits: forward from `startDoy`,
wrapping every value above 366 back to 1. -/
def walkDays : ℕ → ℕ → List ℕ
  | _, 0 => []
  | cur, n + 1 =>
      let cur2 := if cur > 366 then 1 else cur
      cur2 :: walkDays (cur2 + 1) n

/-! ### OLS Trainer and Generative Forecaster (`calculateClimatology`)

The cyclical-encoding oracles `sinO`/`cosO` stand for
`doy ↦ Math.sin(2π·doy/365.25)` and `doy ↦ Math.cos(2π·doy/365.25)`
(host binary floating-point transcendentals with no exact rational
counterpart).  Every verified property quantifies over them. -/

def WINDOW_SIZE : ℕ := 7

/-- The chronological key `year * 1000 + doy` of the in-place
`data.sort` comparator. -/
def sortKey (d : DailyWeather) : ℚ := d.year * 1000 + d.doy

/-- The in-place chronological sort, modelled functionally (JS
`Array.prototype.sort` is stable and the comparator orders by
`sortKey`). -/
def sortChrono (data : List DailyWeather) : List DailyWeather :=
  data.mergeSort (fun a b => decide (sortKey a ≤ sortKey b))

/-- The bias-correction offset: `+20` when the raw mean lies strictly
between −5 and 15.  For the empty list the JS mean is `NaN` and both
comparisons are false (offset 0) — modelled by the emptiness guard. -/
def biasOffset (rawTemps : List ℚ) : ℚ :=
  if rawTemps = [] then 0
  else
    let avgRaw := rawTemps.sum / (rawTemps.length : ℚ)
    if avgRaw < 15 ∧ avgRaw > -5 then 20 else 0

/-- The bias-corrected raw temperature series of the sorted data. -/
def rawTempsOf (data : List DailyWeather) : List ℚ :=
  let rawTemps := (sortChrono data).map (fun d => d.tempRange)
  rawTemps.map (fun v => v + biasOffset rawTemps)

/-- The scaler fitted inside `calculateClimatology`. -/
def scalerOf (data : List DailyWeather) : MinMaxScaler :=
  MinMaxScaler.initial.fit (rawTempsOf data)

/-- The scaled temperature series. -/
def scaledTempsOf (data : List DailyWeather) : List ℚ :=
  (scalerOf data).transform (rawTempsOf data)

/-- A feature vector `[1, sin, cos, lag₁ … lag₇]`. -/
def featureRow (sinO cosO : ℚ → ℚ) (doy : ℚ) (lags : List ℚ) : List ℚ :=
  1 :: sinO doy :: cosO doy :: lags

/-- The lags `scaledTemps[i−1] … scaledTemps[i−7]`. -/
def buildLags (scaledTemps : List ℚ) (i : ℕ) : List ℚ :=
  (List.range' 1 WINDOW_SIZE).map (fun k => scaledTemps.getD (i - k) 0)

/-- The sliding-window training set: one `(features, target)` pair per
index `i` from `WINDOW_SIZE` to `data.length − 1`. -/
def buildXy (sinO cosO : ℚ → ℚ) (scaledTemps : List ℚ)
    (data : List DailyWeather) : List (List ℚ) × List (List ℚ) :=
  let idxs := List.range' WINDOW_SIZE (data.length - WINDOW_SIZE)
  (idxs.map (fun i =>
      featureRow sinO cosO (data.getD i default).doy (buildLags scaledTemps i)),
   idxs.map (fun i => [scaledTemps.getD i 0]))

/-- `transpose(A)`: `A[0].map(...)` — accessing `A[0]` of an empty
matrix throws in JS, modelled by `Except.error`. -/
def transposeM (A : List (List ℚ)) : Except Unit (List (List ℚ)) :=
  match A with
  | [] => .error ()
  | r0 :: _ => .ok (mapIdxFrom (fun i _ => A.map (fun row => row.getD i 0)) 0 r0)

/-- `multiply(A, B)`: the triple loop.  Reading `A[0]`/`B[0]` of an
empty matrix throws in JS (`Except.error`); other out-of-range element
reads are modelled by `getD 0` defaults and do not occur for the
shapes this pipeline builds. -/
def multiplyM (A B : List (List ℚ)) : Except Unit (List (List ℚ)) :=
  match A, B with
  | [], _ => .error ()
  | _, [] => .error ()
  | a0 :: _, b0 :: _ =>
      .ok ((List.range A.length).map (fun i =>
        (List.range b0.length).map (fun j =>
          (List.range a0.length).foldl
            (fun acc k => acc + getEntry A i k * getEntry B k j) 0)))

/-- The try-block of the OLS Trainer:
`β = (XᵀX)⁻¹ Xᵀy`, flattened to a weight list.  `Except.error` models
the exception thrown inside the source's `try` (for this pipeline,
the `transpose`/`multiply` of an empty training matrix). -/
def olsWeights (X y : List (List ℚ)) : Except Unit (List ℚ) := do
  let Xt ← transposeM X
  let XtX ← multiplyM Xt X
  let XtX_inv := inverse XtX
  let XtY ← multiplyM Xt y
  let Beta ← multiplyM XtX_inv XtY
  return Beta.map (fun row => row.getD 0 0)

/-- The catch-branch weights `[0.5, 0, …, 0]` (length 10). -/
def fallbackWeights : List ℚ := 0.5 :: List.replicate 9 0

/-- The try/catch around the normal equation: any exception falls
back to the mean-predicting weights. -/
def trainWeights (X y : List (List ℚ)) : List ℚ :=
  match olsWeights X y with
  | .ok w => w
  | .error _ => fallbackWeights

/-- The weights `calculateClimatology` uses for `data`. -/
def usedWeights (sinO cosO : ℚ → ℚ) (data : List DailyWeather) : List ℚ :=
  trainWeights (buildXy sinO cosO (scaledTempsOf data) (sortChrono data)).1
    (buildXy sinO cosO (scaledTempsOf data) (sortChrono data)).2

/-- `precipMap`: group the precipitation values by `doy` (the source's
ensure-then-push pair is one `set` of the extended group). -/
def buildPrecipMap (data : List DailyWeather) : JsMap ℚ (List ℚ) :=
  data.foldl
    (fun m d => m.set d.doy (((m.get d.doy).getD []) ++ [d.precip])) .empty

/-- `pVals` for a forecast day: the stored group, or `[0]` when the
day is absent (`precipMap.get(doy) || [0]`; a present group is always
non-empty and arrays are truthy in JS). -/
def pValsOf (precipM : JsMap ℚ (List ℚ)) (doy : ℕ) : List ℚ :=
  (precipM.get (doy : ℚ)).getD [0]

/-- `pVals.reduce((a,b) => a+b, 0) / (pVals.length || 1)`. -/
def avgPrecipOf (precipM : JsMap ℚ (List ℚ)) (doy : ℕ) : ℚ :=
  (pValsOf precipM doy).sum /
    (if (pValsOf precipM doy).length = 0 then 1
     else ((pValsOf precipM doy).length : ℚ))

/-- `parseFloat(x.toFixed(2))`: rounding to two decimal places (exact
rational rounding; JS rounds the decimal rendering of the underlying
binary double, which agrees away from representation-boundary
ties). -/
def round2 (x : ℚ) : ℚ := (round (x * 100) : ℤ) / 100

/-- The lag-buffer seed `scaledTemps.slice(-7).reverse()`. -/
def lagSeed (scaledTemps : List ℚ) : List ℚ :=
  (scaledTemps.drop (scaledTemps.length - WINDOW_SIZE)).reverse

/-- The dot product `Σ_w weights[w]·features[w]` over
`weights.length` indices.  JS reads `undefined` past the end of
`features` (NaN, unrepresentable in ℚ, modelled as `getD 0`); that
happens only when fewer than `WINDOW_SIZE` scaled values seeded the
buffer, and then only pollutes `avgTemp`, which no verified property
constrains. -/
def genPrediction (sinO cosO : ℚ → ℚ) (weights lags : List ℚ)
    (doy : ℕ) : ℚ :=
  let features := featureRow sinO cosO (doy : ℚ) lags
  (List.range weights.length).foldl
    (fun acc w => acc + weights.getD w 0 * features.getD w 0) 0

/-- The `ClimatologyDay` emitted for a forecast day. -/
def genEntry (sinO cosO : ℚ → ℚ) (weights : List ℚ) (scaler : MinMaxScaler)
    (precipM : JsMap ℚ (List ℚ)) (lags : List ℚ) (doy : ℕ) : Climatology :=
  ⟨doy,
   round2 (scaler.inverseTransform (genPrediction sinO cosO weights lags doy)),
   round2 (avgPrecipOf precipM doy),
   (pValsOf precipM doy).length⟩

/-- One day of the generative rollout: predict, shift the lag buffer
(`pop` the oldest, `unshift` the prediction), emit the entry. -/
def genStep (sinO cosO : ℚ → ℚ) (weights : List ℚ) (scaler : MinMaxScaler)
    (precipM : JsMap ℚ (List ℚ)) (st : List ℚ × JsMap ℕ Climatology)
    (doy : ℕ) : List ℚ × JsMap ℕ Climatology :=
  (genPrediction sinO cosO weights st.1 doy :: st.1.dropLast,
   st.2.set doy (genEntry sinO cosO weights scaler precipM st.1 doy))

/-- `calculateClimatology(data)`: sort, bias-correct, scale, build the
window dataset, train (with fallback), aggregate precipitation, and
run the generative loop over days 1..366. -/
def calculateClimatology (sinO cosO : ℚ → ℚ) (data : List DailyWeather) :
    JsMap ℕ Climatology :=
  ((List.range' 1 366).foldl
      (genStep sinO cosO (usedWeights sinO cosO data) (scalerOf data)
        (buildPrecipMap (sortChrono data)))
      (lagSeed (scaledTempsOf data), JsMap.empty)).2

/-- `calculateClimatology` together with the in-place effect on the
caller's array (`data.sort` mutates the argument): `(returned map,
what the caller's binding refers to after the call)`. -/
def calculateClimatologyWithState (sinO cosO : ℚ → ℚ)
    (data : List DailyWeather) : JsMap ℕ Climatology × List DailyWeather :=
  (calculateClimatology sinO cosO data, sortChrono data)


/-! ## Theorems -/

lemma parseStep_no_sentinel_of_unfound (l : List Char)
    (hne : jsTrim l ≠ endHeaderSentinel) (data : List DailyWeatherRaw) :
    parseStep (false, data) l = (false, data) := by
  unfold parseStep
  by_cases h1 : jsTrim l = []
  · simp [h1]
  · simp [h1, endHeaderSentinel] at hne ⊢
    simp [hne]

lemma foldl_parseStep_no_sentinel (lines : List (List Char))
    (h : ∀ l ∈ lines, jsTrim l ≠ endHeaderSentinel) (data : List DailyWeatherRaw) :
    lines.foldl parseStep (false, data) = (false, data) := by
  induction lines with
  | nil => rfl
  | cons l ls ih =>
      rw [List.foldl_cons,
          parseStep_no_sentinel_of_unfound l (h l (List.mem_cons_self _ _)) data]
      exact ih (fun x hx => h x (List.mem_cons_of_mem _ hx))

/-- C7 (counterexample): the claim "input with no line *exactly equal*
to `-END HEADER-` yields an empty record list" is false: the source
compares the *trimmed* line against the sentinel, so a line carrying
extra surrounding whitespace still opens the data region. -/
theorem parseNASAData_exact_sentinel_counterexample :
    (∀ l ∈ splitOnPred (fun c => c = '\n') ("  -END HEADER-\n1,2,3,4").data,
        l ≠ endHeaderSentinel) ∧
    parseNASAData "  -END HEADER-\n1,2,3,4" ≠ [] := by
  constructor
  · decide
  · decide

/-- C7 (amended): if no line of the input *trims to* `-END HEADER-`,
the parser returns the empty record list.  (The parser is a total
function — it never throws — and an empty list is a valid result.) -/
theorem parseNASAData_no_sentinel_empty (text : String)
    (h : ∀ l ∈ splitOnPred (fun c => c = '\n') text.data,
        jsTrim l ≠ endHeaderSentinel) :
    parseNASAData text = [] := by
  unfold parseNASAData
  rw [foldl_parseStep_no_sentinel _ h]

/-- C7 witness: a concrete sentinel-free input parses to `[]`. -/
theorem parseNASAData_no_sentinel_empty_witness :
    parseNASAData "hello\n1,2,3,4" = [] :=
  parseNASAData_no_sentinel_empty "hello\n1,2,3,4" (by decide)

lemma parseStep_preserves_noNaN (st : Bool × List DailyWeatherRaw)
    (line : List Char) (h : ∀ r ∈ st.2, r.noNaN) :
    ∀ r ∈ (parseStep st line).2, r.noNaN := by
  intro r hr
  unfold parseStep at hr
  dsimp only at hr
  split at hr
  · exact h r hr
  split at hr
  · exact h r hr
  split at hr
  · exact h r hr
  split at hr
  · exact h r hr
  split at hr
  · split at hr
    · rename_i hc
      rcases List.mem_append.1 hr with hr | hr
      · exact h r hr
      · rcases List.mem_singleton.1 hr with rfl
        simp only [Bool.and_eq_true, Bool.not_eq_true'] at hc
        exact ⟨hc.1.1.1, hc.1.1.2, hc.1.2, hc.2⟩
    · exact h r hr
  · exact h r hr

lemma foldl_parseStep_preserves_noNaN (lines : List (List Char))
    (st : Bool × List DailyWeatherRaw) (h : ∀ r ∈ st.2, r.noNaN) :
    ∀ r ∈ (lines.foldl parseStep st).2, r.noNaN := by
  induction lines generalizing st with
  | nil => exact h
  | cons l ls ih =>
      rw [List.foldl_cons]
      exact ih _ (parseStep_preserves_noNaN st l h)

/-- C9 (counterexample): the claim "a line any of whose numeric fields
parses to a *non-finite* value is dropped" is false: the source only
filters `NaN`s, and the JS string `"Infinity"` converts to the
non-finite value `Infinity` without being `NaN`, so the record is kept
with a non-finite `tempRange`. -/
theorem parseNASAData_infinity_counterexample :
    parseNASAData "-END HEADER-\n2020,1,Infinity,3" =
      [⟨.num 2020, .num 1, .inf, .num 3⟩] ∧
    (JSNum.inf).isFinite = false := by
  constructor
  · decide
  · decide

/-- C9 (amended): every record returned by the parser has all four
numeric fields non-`NaN` (lines with a `NaN` field are silently
dropped); non-finite but non-`NaN` values such as `Infinity` can pass
through. -/
theorem parseNASAData_records_noNaN (text : String) (r : DailyWeatherRaw)
    (hr : r ∈ parseNASAData text) : r.noNaN :=
  foldl_parseStep_preserves_noNaN _ (false, []) (by simp) r hr

/-- C9 witness: a concretely parsed record, shown non-NaN via the
theorem. -/
theorem parseNASAData_records_noNaN_witness :
    (⟨.num 2020, .num 1, .num 5, .num 3⟩ : DailyWeatherRaw).noNaN :=
  parseNASAData_records_noNaN "-END HEADER-\n2020,1,5,3"
    ⟨.num 2020, .num 1, .num 5, .num 3⟩ (by decide)

@[simp] lemma mapIdxFrom_nil (f : ℕ → α → β) (k : ℕ) :
    mapIdxFrom f k [] = [] := rfl

@[simp] lemma mapIdxFrom_cons (f : ℕ → α → β) (k : ℕ) (a : α) (as : List α) :
    mapIdxFrom f k (a :: as) = f k a :: mapIdxFrom f (k + 1) as := rfl

@[simp] lemma length_mapIdxFrom (f : ℕ → α → β) :
    ∀ (k : ℕ) (l : List α), (mapIdxFrom f k l).length = l.length := by
  intro k l
  induction l generalizing k with
  | nil => rfl
  | cons a as ih => simp [mapIdxFrom, ih]

lemma getD_mapIdxFrom (f : ℕ → α → β) (d : α) (e : β) :
    ∀ (k i : ℕ) (l : List α), i < l.length →
      (mapIdxFrom f k l).getD i e = f (k + i) (l.getD i d) := by
  intro k i l
  induction l generalizing k i with
  | nil => intro h; cases h
  | cons a as ih =>
      intro h
      cases i with
      | zero => rfl
      | succ j =>
          have hj : j < as.length := Nat.lt_of_succ_lt_succ h
          simp only [mapIdxFrom, List.getD_cons_succ]
          rw [ih (k + 1) j hj]
          ring_nf

/-- C8: for every record position, the temperature delta introduced by
the Location Adjuster, excluding the noise term, is exactly
`−0.75 × (|target| − |base|)`, with an additional exact `−5` offset
when `|target| > 60`. -/
theorem adjustDataForLocation_delta (noise precipFactor : ℕ → ℚ)
    (data : List DailyWeather) (baseLat newLat : ℚ) (i : ℕ)
    (hi : i < data.length) :
    (|newLat| ≤ 60 →
      ((adjustDataForLocation noise precipFactor data baseLat newLat).getD i default).tempRange
        - (data.getD i default).tempRange - noise i
      = -(0.75 * (|newLat| - |baseLat|))) ∧
    (60 < |newLat| →
      ((adjustDataForLocation noise precipFactor data baseLat newLat).getD i default).tempRange
        - (data.getD i default).tempRange - noise i
      = -(0.75 * (|newLat| - |baseLat|)) - 5) := by
  have habs : (newLat > 60 || newLat < -60) = true ↔ 60 < |newLat| := by
    simp only [Bool.or_eq_true, decide_eq_true_eq]
    rw [lt_abs]
    constructor
    · rintro (h | h)
      · exact Or.inl h
      · exact Or.inr (by linarith)
    · rintro (h | h)
      · exact Or.inl h
      · exact Or.inr (by linarith)
  unfold adjustDataForLocation
  rw [getD_mapIdxFrom _ default _ 0 i data hi]
  constructor
  · intro hle
    have hcond : (newLat > 60 || newLat < -60) = false := by
      rw [Bool.eq_false_iff]
      intro hc
      exact absurd (habs.1 hc) (not_lt.2 hle)
    simp only [hcond, Bool.false_eq_true, if_false, Nat.zero_add]
    ring
  · intro hgt
    have hcond : (newLat > 60 || newLat < -60) = true := habs.2 hgt
    simp only [hcond, if_true, Nat.zero_add]
    ring

/-- C8 witness: moving from latitude 10 to latitude 70 (polar band),
with the noise oracle zeroed, shifts the temperature by exactly
`−0.75·(70 − 10) − 5 = −50`. -/
theorem adjustDataForLocation_delta_witness :
    ((adjustDataForLocation (fun _ => 0) (fun _ => 1)
        [⟨2020, 1, 10, 2⟩] 10 70).getD 0 default).tempRange
      - (([⟨2020, 1, 10, 2⟩] : List DailyWeather).getD 0 default).tempRange
      - (fun _ : ℕ => (0 : ℚ)) 0
    = -(0.75 * (|(70 : ℚ)| - |(10 : ℚ)|)) - 5 :=
  (adjustDataForLocation_delta (fun _ => 0) (fun _ => 1)
      [⟨2020, 1, 10, 2⟩] 10 70 0 (by simp)).2 (by norm_num)

lemma foldl_max_init_mono {v w : ℚ} (h : v ≤ w) (vs : List ℚ) :
    vs.foldl max v ≤ vs.foldl max w := by
  induction vs generalizing v w with
  | nil => exact h
  | cons a vs ih => exact ih (max_le_max h le_rfl)

lemma foldl_min_le_foldl_max (v : ℚ) (vs : List ℚ) :
    vs.foldl min v ≤ vs.foldl max v := by
  induction vs generalizing v with
  | nil => exact le_refl v
  | cons a vs ih =>
      calc (a :: vs).foldl min v = vs.foldl min (min v a) := rfl
        _ ≤ vs.foldl max (min v a) := ih (min v a)
        _ ≤ vs.foldl max (max v a) :=
            foldl_max_init_mono (le_trans (min_le_left _ _) (le_max_left _ _)) vs

lemma fit_min_lt_max (s : MinMaxScaler) (values : List ℚ) (h : values ≠ []) :
    (s.fit values).min < (s.fit values).max := by
  obtain ⟨v, vs, rfl⟩ := List.exists_cons_of_ne_nil h
  unfold MinMaxScaler.fit
  by_cases heq : mathMax (v :: vs) = mathMin (v :: vs)
  · simp only [heq, if_true]
    linarith
  · simp only [heq, if_false]
    exact lt_of_le_of_ne (foldl_min_le_foldl_max v vs) (Ne.symm heq)

/-- C5: once `fit` has run on a non-empty value list,
`inverseTransform (transform x) = x` exactly, for every `x` (also
outside the fitted range). -/
theorem scaler_roundTrip (s : MinMaxScaler) (values : List ℚ) (x : ℚ)
    (h : values ≠ []) :
    (s.fit values).inverseTransform ((s.fit values).transformOne x) = x := by
  have hlt := fit_min_lt_max s values h
  have hne : (s.fit values).max - (s.fit values).min ≠ 0 := by linarith
  unfold MinMaxScaler.inverseTransform MinMaxScaler.transformOne
  field_simp

/-- C5 witness: fitting `[1, 2]` and round-tripping the out-of-range
value `5`. -/
theorem scaler_roundTrip_witness :
    (MinMaxScaler.initial.fit [1, 2]).inverseTransform
      ((MinMaxScaler.initial.fit [1, 2]).transformOne 5) = 5 :=
  scaler_roundTrip MinMaxScaler.initial [1, 2] 5 (by simp)

/-- C1: the Linear Algebra Kernel does *not* fail on a singular
matrix.  For the singular matrix `[[1,1],[1,1]]` the second pivot is
`0 < 1e-10`; the source's singularity check merely `continue`s, and
`inverse` returns the numeric matrix `[[1,0],[-1,1]]` (which is not an
inverse of anything — `[[1,1],[1,1]]` has none) instead of failing
explicitly as the specification requires. -/
theorem inverse_singular_returns_numeric :
    inverse [[1, 1], [1, 1]] = [[1, 0], [-1, 1]] := by
  show ((List.range 2).foldl (elimStep 2) (augment [[1, 1], [1, 1]])).map
      (fun row => row.drop 2) = [[1, 0], [-1, 1]]
  norm_num [augment, idRow, elimStep, pivotRow, swapRows, getEntry,
    List.range_succ, List.range'_succ]

namespace JsMap
variable {α β : Type} [DecidableEq α]

lemma has_iff_mem_keys (m : JsMap α β) (k : α) :
    m.has k = true ↔ k ∈ m.keys := by
  unfold has keys
  rw [List.any_eq_true]
  constructor
  · rintro ⟨e, he, hk⟩
    exact List.mem_map.2 ⟨e, he, of_decide_eq_true hk⟩
  · rintro h
    rcases List.mem_map.1 h with ⟨e, he, hk⟩
    exact ⟨e, he, decide_eq_true hk⟩

lemma set_of_not_mem_keys {m : JsMap α β} {k : α} (h : k ∉ m.keys) (v : β) :
    (m.set k v).entries = m.entries ++ [(k, v)] := by
  unfold set
  rw [if_neg]
  intro hc
  exact h ((has_iff_mem_keys m k).1 hc)

lemma keys_set_of_not_mem {m : JsMap α β} {k : α} (h : k ∉ m.keys) (v : β) :
    (m.set k v).keys = m.keys ++ [k] := by
  unfold keys
  rw [set_of_not_mem_keys h v, List.map_append]
  rfl

lemma get_eq_getEntries (m : JsMap α β) (k : α) :
    m.get k = getEntries k m.entries := by
  unfold get
  induction m.entries with
  | nil => rfl
  | cons e es ih =>
      by_cases hek : e.1 = k
      · rw [List.find?_cons_of_pos _ (by simpa using hek)]
        simp [getEntries, hek]
      · rw [List.find?_cons_of_neg _ (by simpa using hek)]
        simp only [getEntries, if_neg hek]
        exact ih

lemma getEntries_eq_none_of_not_mem {k : α} :
    ∀ {es : List (α × β)}, k ∉ es.map Prod.fst → getEntries k es = none := by
  intro es
  induction es with
  | nil => intro _; rfl
  | cons e es ih =>
      intro h
      simp only [List.map_cons, List.mem_cons] at h
      push_neg at h
      simp only [getEntries, if_neg (fun hc : e.1 = k => h.1 hc.symm)]
      exact ih h.2

lemma get_eq_none_of_not_mem_keys {m : JsMap α β} {k : α} (h : k ∉ m.keys) :
    m.get k = none := by
  rw [get_eq_getEntries]
  exact getEntries_eq_none_of_not_mem h

lemma getEntries_map_replace (k : α) (v : β) :
    ∀ es : List (α × β), es.any (fun e => decide (e.1 = k)) = true →
      getEntries k (es.map (fun e => if e.1 = k then (k, v) else e)) = some v := by
  intro es
  induction es with
  | nil => intro h; cases h
  | cons e es ih =>
      intro h
      by_cases hek : e.1 = k
      · simp [getEntries, hek]
      · simp only [List.any_cons, Bool.or_eq_true, decide_eq_true_eq] at h
        rcases h with h | h
        · exact absurd h hek
        · simp only [List.map_cons, if_neg hek, getEntries, ih h]

lemma getEntries_append_last (k : α) (v : β) :
    ∀ es : List (α × β), getEntries k (es ++ [(k, v)]) =
      ((getEntries k es).rec (some v) (fun b => some b) : Option β) := by
  intro es
  induction es with
  | nil => simp [getEntries]
  | cons e es ih =>
      by_cases hek : e.1 = k
      · simp [getEntries, hek]
      · simp only [List.cons_append, getEntries, if_neg hek]
        exact ih

lemma get_set_self (m : JsMap α β) (k : α) (v : β) :
    (m.set k v).get k = some v := by
  unfold set
  split
  · next hhas =>
      rw [get_eq_getEntries]
      exact getEntries_map_replace k v m.entries hhas
  · next hhas =>
      rw [get_eq_getEntries]
      show getEntries k (m.entries ++ [(k, v)]) = some v
      rw [getEntries_append_last]
      have hnone : getEntries k m.entries = none := by
        apply getEntries_eq_none_of_not_mem
        intro hmem
        exact hhas ((has_iff_mem_keys m k).2 hmem)
      rw [hnone]

lemma getEntries_map_replace_ne {k k' : α} (v : β) (hne : k' ≠ k) :
    ∀ es : List (α × β),
      getEntries k' (es.map (fun e => if e.1 = k then (k, v) else e)) =
        getEntries k' es := by
  intro es
  induction es with
  | nil => rfl
  | cons e es ih =>
      by_cases hek : e.1 = k
      · have h2 : ¬e.1 = k' := fun hc => hne ((hc.symm.trans hek).symm ▸ rfl)
        simp only [List.map_cons, if_pos hek, getEntries,
          if_neg (fun hc : k = k' => hne hc.symm), if_neg h2]
        exact ih
      · by_cases hek' : e.1 = k'
        · simp [getEntries, hek, hek', hne]
        · simp only [List.map_cons, if_neg hek, getEntries, if_neg hek']
          exact ih

lemma getEntries_append_last_ne {k k' : α} (v : β) (hne : k' ≠ k) :
    ∀ es : List (α × β), getEntries k' (es ++ [(k, v)]) = getEntries k' es := by
  intro es
  induction es with
  | nil =>
      have hkk : ¬k = k' := fun hc => hne hc.symm
      simp [getEntries, hkk]
  | cons e es ih =>
      by_cases hek' : e.1 = k'
      · simp [getEntries, hek']
      · simp only [List.cons_append, getEntries, if_neg hek']
        exact ih

lemma get_set_ne (m : JsMap α β) {k k' : α} (v : β) (hne : k' ≠ k) :
    (m.set k v).get k' = m.get k' := by
  rw [get_eq_getEntries, get_eq_getEntries]
  unfold set
  split
  · exact getEntries_map_replace_ne v hne m.entries
  · exact getEntries_append_last_ne v hne m.entries

end JsMap

lemma walkDays_length : ∀ (cur n : ℕ), (walkDays cur n).length = n := by
  intro cur n
  induction n generalizing cur with
  | zero => rfl
  | succ n ih => simp [walkDays, ih]

lemma getForecastGo_eq_filterMap (m : JsMap ℕ Climatology) :
    ∀ (n cur : ℕ), getForecastGo m cur n = (walkDays cur n).filterMap m.get := by
  intro n
  induction n with
  | zero => intro cur; rfl
  | succ n ih =>
      intro cur
      simp only [getForecastGo, walkDays, List.filterMap_cons]
      cases m.get (if cur > 366 then 1 else cur) with
      | none => exact ih _
      | some c => rw [ih]

/-- C6: `getForecast` returns exactly the entries found along the
wrapped forward walk, in walk order (skipping, not substituting,
missing days), collecting at most `numDays` entries; the walk from day
364 for 5 days visits `[364, 365, 366, 1, 2]`, so on a map containing
those days the forecast is their entries in that order. -/
theorem getForecast_spec :
    (∀ (m : JsMap ℕ Climatology) (startDoy days : ℕ),
        getForecast m startDoy days = (walkDays startDoy days).filterMap m.get ∧
        (getForecast m startDoy days).length ≤ days) ∧
    walkDays 364 5 = [364, 365, 366, 1, 2] ∧
    (∀ (m : JsMap ℕ Climatology) (f : ℕ → Climatology),
        (∀ d ∈ [364, 365, 366, 1, 2], m.get d = some (f d)) →
        getForecast m 364 5 = [f 364, f 365, f 366, f 1, f 2]) := by
  have hmain : ∀ (m : JsMap ℕ Climatology) (startDoy days : ℕ),
      getForecast m startDoy days = (walkDays startDoy days).filterMap m.get :=
    fun m startDoy days => getForecastGo_eq_filterMap m days startDoy
  refine ⟨fun m startDoy days => ⟨hmain m startDoy days, ?_⟩, by decide, ?_⟩
  · rw [hmain]
    calc ((walkDays startDoy days).filterMap m.get).length
        ≤ (walkDays startDoy days).length := List.length_filterMap_le _ _
      _ = days := walkDays_length _ _
  · intro m f h
    rw [hmain, show walkDays 364 5 = [364, 365, 366, 1, 2] from by decide]
    simp only [List.filterMap_cons, h 364 (by simp), h 365 (by simp),
      h 366 (by simp), h 1 (by simp), h 2 (by simp), List.filterMap_nil]

/-- C6 witness: a concrete 5-entry map exercising the wraparound
instance of the theorem. -/
theorem getForecast_spec_witness :
    getForecast ⟨[(364, ⟨364, 0, 0, 0⟩), (365, ⟨365, 0, 0, 0⟩),
        (366, ⟨366, 0, 0, 0⟩), (1, ⟨1, 0, 0, 0⟩), (2, ⟨2, 0, 0, 0⟩)]⟩ 364 5 =
      [⟨364, 0, 0, 0⟩, ⟨365, 0, 0, 0⟩, ⟨366, 0, 0, 0⟩, ⟨1, 0, 0, 0⟩,
        ⟨2, 0, 0, 0⟩] :=
  getForecast_spec.2.2
    ⟨[(364, ⟨364, 0, 0, 0⟩), (365, ⟨365, 0, 0, 0⟩), (366, ⟨366, 0, 0, 0⟩),
        (1, ⟨1, 0, 0, 0⟩), (2, ⟨2, 0, 0, 0⟩)]⟩
    (fun d => ⟨d, 0, 0, 0⟩) (by intro d hd; fin_cases hd <;> rfl)

/-! ### Lemmas about the generative loop -/

lemma foldl_genStep_keys (sinO cosO : ℚ → ℚ) (weights : List ℚ)
    (scaler : MinMaxScaler) (precipM : JsMap ℚ (List ℚ)) :
    ∀ (ks : List ℕ) (st : List ℚ × JsMap ℕ Climatology), ks.Nodup →
      (∀ k ∈ ks, k ∉ st.2.keys) →
      ((ks.foldl (genStep sinO cosO weights scaler precipM) st).2).keys
        = st.2.keys ++ ks := by
  intro ks
  induction ks with
  | nil => intro st _ _; simp
  | cons k ks ih =>
      intro st hnd hfresh
      have hk : k ∉ st.2.keys := hfresh k (List.mem_cons_self _ _)
      have hstep : (genStep sinO cosO weights scaler precipM st k).2.keys
          = st.2.keys ++ [k] := JsMap.keys_set_of_not_mem hk _
      rw [List.foldl_cons, ih _ (List.Nodup.of_cons hnd) ?fresh, hstep,
        List.append_assoc, List.singleton_append]
      case fresh =>
        intro j hj
        rw [hstep]
        intro hmem
        rcases List.mem_append.1 hmem with hmem | hmem
        · exact hfresh j (List.mem_cons_of_mem _ hj) hmem
        · rcases List.mem_singleton.1 hmem with rfl
          exact (List.nodup_cons.1 hnd).1 hj

lemma foldl_genStep_get_preserved (sinO cosO : ℚ → ℚ) (weights : List ℚ)
    (scaler : MinMaxScaler) (precipM : JsMap ℚ (List ℚ)) :
    ∀ (ks : List ℕ) (st : List ℚ × JsMap ℕ Climatology) (k : ℕ), k ∉ ks →
      ((ks.foldl (genStep sinO cosO weights scaler precipM) st).2).get k
        = st.2.get k := by
  intro ks
  induction ks with
  | nil => intro st k _; rfl
  | cons j ks ih =>
      intro st k hk
      rw [List.foldl_cons, ih _ k (fun hc => hk (List.mem_cons_of_mem _ hc))]
      exact JsMap.get_set_ne st.2 _ (fun hc => hk (hc ▸ List.mem_cons_self _ _))

lemma foldl_genStep_get (sinO cosO : ℚ → ℚ) (weights : List ℚ)
    (scaler : MinMaxScaler) (precipM : JsMap ℚ (List ℚ)) :
    ∀ (ks : List ℕ) (st : List ℚ × JsMap ℕ Climatology) (k : ℕ), ks.Nodup →
      k ∈ ks →
      ∃ lags, ((ks.foldl (genStep sinO cosO weights scaler precipM) st).2).get k
        = some (genEntry sinO cosO weights scaler precipM lags k) := by
  intro ks
  induction ks with
  | nil => intro st k _ hk; cases hk
  | cons j ks ih =>
      intro st k hnd hk
      rw [List.foldl_cons]
      by_cases hkj : k = j
      · subst hkj
        refine ⟨st.1, ?_⟩
        rw [foldl_genStep_get_preserved sinO cosO weights scaler precipM ks _ k
          (List.nodup_cons.1 hnd).1]
        exact JsMap.get_set_self st.2 k _
      · rcases List.mem_cons.1 hk with rfl | hk
        · exact absurd rfl hkj
        · exact ih _ k (List.nodup_cons.1 hnd).2 hk

lemma calcClim_keys_aux (sinO cosO : ℚ → ℚ) (data : List DailyWeather) :
    (calculateClimatology sinO cosO data).keys = List.range' 1 366 := by
  unfold calculateClimatology
  rw [foldl_genStep_keys _ _ _ _ _ (List.range' 1 366) _
    (List.nodup_range' 1 366) (fun k _ hc => by cases hc)]
  rfl

lemma calcClim_get_aux (sinO cosO : ℚ → ℚ) (data : List DailyWeather)
    (doy : ℕ) (h1 : 1 ≤ doy) (h2 : doy ≤ 366) :
    ∃ lags, (calculateClimatology sinO cosO data).get doy
      = some (genEntry sinO cosO (usedWeights sinO cosO data) (scalerOf data)
          (buildPrecipMap (sortChrono data)) lags doy) := by
  unfold calculateClimatology
  exact foldl_genStep_get _ _ _ _ _ (List.range' 1 366) _ doy
    (List.nodup_range' 1 366)
    (List.mem_range'.2 ⟨doy - 1, by omega, by omega⟩)

/-! ### Lemmas about the precipitation aggregation -/

lemma buildPrecipMap_go_some (q : ℚ) :
    ∀ (data : List DailyWeather) (m : JsMap ℚ (List ℚ)) (l : List ℚ),
      m.get q = some l →
      ((data.foldl
          (fun m d => m.set d.doy (((m.get d.doy).getD []) ++ [d.precip])) m).get q)
        = some (l ++ (data.filter (fun d => decide (d.doy = q))).map
            (fun d => d.precip)) := by
  intro data
  induction data with
  | nil => intro m l hm; simpa using hm
  | cons d ds ih =>
      intro m l hm
      rw [List.foldl_cons]
      by_cases hd : d.doy = q
      · have hset : (m.set d.doy (((m.get d.doy).getD []) ++ [d.precip])).get q
            = some (l ++ [d.precip]) := by
          rw [hd] at *
          rw [hm]
          exact JsMap.get_set_self m q _
        rw [ih _ _ hset]
        simp [List.filter_cons, hd, List.append_assoc]
      · have hset : (m.set d.doy (((m.get d.doy).getD []) ++ [d.precip])).get q
            = some l := by
          rw [JsMap.get_set_ne m _ (fun hc => hd hc.symm)]
          exact hm
        rw [ih _ _ hset]
        simp [List.filter_cons, hd]

lemma buildPrecipMap_go_none (q : ℚ) :
    ∀ (data : List DailyWeather) (m : JsMap ℚ (List ℚ)), m.get q = none →
      ((data.foldl
          (fun m d => m.set d.doy (((m.get d.doy).getD []) ++ [d.precip])) m).get q)
        = if (data.filter (fun d => decide (d.doy = q))) = [] then none
          else some ((data.filter (fun d => decide (d.doy = q))).map
            (fun d => d.precip)) := by
  intro data
  induction data with
  | nil => intro m hm; simpa using hm
  | cons d ds ih =>
      intro m hm
      rw [List.foldl_cons]
      by_cases hd : d.doy = q
      · have hset : (m.set d.doy (((m.get d.doy).getD []) ++ [d.precip])).get q
            = some [d.precip] := by
          rw [hd] at *
          rw [hm]
          exact JsMap.get_set_self m q _
        rw [buildPrecipMap_go_some q ds _ _ hset]
        simp [List.filter_cons, hd]
      · have hset : (m.set d.doy (((m.get d.doy).getD []) ++ [d.precip])).get q
            = none := by
          rw [JsMap.get_set_ne m _ (fun hc => hd hc.symm)]
          exact hm
        rw [ih _ hset]
        simp [List.filter_cons, hd]

lemma buildPrecipMap_get (data : List DailyWeather) (q : ℚ) :
    (buildPrecipMap data).get q
      = if (data.filter (fun d => decide (d.doy = q))) = [] then none
        else some ((data.filter (fun d => decide (d.doy = q))).map
          (fun d => d.precip)) :=
  buildPrecipMap_go_none q data .empty rfl

lemma pValsOf_buildPrecipMap (data : List DailyWeather) (doy : ℕ) :
    pValsOf (buildPrecipMap data) doy
      = if (data.filter (fun d => decide (d.doy = (doy : ℚ)))) = [] then [0]
        else ((data.filter (fun d => decide (d.doy = (doy : ℚ)))).map
          (fun d => d.precip)) := by
  unfold pValsOf
  rw [buildPrecipMap_get]
  split
  · rfl
  · rfl

/-! ### The claims about `calculateClimatology` -/

/-- C3: for every input record list — training always reaches the
generative loop, in mean-fallback mode if the normal equation throws —
the returned climatology map has exactly the keys 1..366, in order. -/
theorem calculateClimatology_keys (sinO cosO : ℚ → ℚ)
    (data : List DailyWeather) :
    (calculateClimatology sinO cosO data).keys = List.range' 1 366 :=
  calcClim_keys_aux sinO cosO data

/-- C2 (code bug): with at most `WINDOW_SIZE` records the feature
builder yields zero training pairs, the empty-matrix `transpose` throw
is swallowed by the *same* catch as the singularity fallback
(the weights silently become `fallbackWeights`), and the engine still
returns a complete 366-day climatology — there is no distinct
insufficient-data failure. -/
theorem insufficientData_silently_succeeds (sinO cosO : ℚ → ℚ)
    (data : List DailyWeather) (h : data.length ≤ WINDOW_SIZE) :
    olsWeights (buildXy sinO cosO (scaledTempsOf data) (sortChrono data)).1
        (buildXy sinO cosO (scaledTempsOf data) (sortChrono data)).2
      = .error () ∧
    usedWeights sinO cosO data = fallbackWeights ∧
    (calculateClimatology sinO cosO data).keys = List.range' 1 366 := by
  have hlen : (sortChrono data).length - WINDOW_SIZE = 0 := by
    have hs : (sortChrono data).length = data.length := by
      unfold sortChrono
      exact List.length_mergeSort data
    omega
  have hX : (buildXy sinO cosO (scaledTempsOf data) (sortChrono data)).1 = [] := by
    simp only [buildXy, hlen]
    rfl
  refine ⟨?_, ?_, calcClim_keys_aux sinO cosO data⟩
  · rw [hX]
    rfl
  · unfold usedWeights trainWeights
    rw [hX]
    rfl

/-- C2 witness: seven records of the year 2020. -/
theorem insufficientData_silently_succeeds_witness :
    ([⟨2020, 1, 10, 1⟩, ⟨2020, 2, 10, 1⟩, ⟨2020, 3, 10, 1⟩, ⟨2020, 4, 10, 1⟩,
        ⟨2020, 5, 10, 1⟩, ⟨2020, 6, 10, 1⟩, ⟨2020, 7, 10, 1⟩] :
      List DailyWeather).length ≤ WINDOW_SIZE ∧
    usedWeights (fun _ => 0) (fun _ => 0)
        [⟨2020, 1, 10, 1⟩, ⟨2020, 2, 10, 1⟩, ⟨2020, 3, 10, 1⟩, ⟨2020, 4, 10, 1⟩,
          ⟨2020, 5, 10, 1⟩, ⟨2020, 6, 10, 1⟩, ⟨2020, 7, 10, 1⟩]
      = fallbackWeights ∧
    (calculateClimatology (fun _ => 0) (fun _ => 0)
        [⟨2020, 1, 10, 1⟩, ⟨2020, 2, 10, 1⟩, ⟨2020, 3, 10, 1⟩, ⟨2020, 4, 10, 1⟩,
          ⟨2020, 5, 10, 1⟩, ⟨2020, 6, 10, 1⟩, ⟨2020, 7, 10, 1⟩]).keys
      = List.range' 1 366 :=
  ⟨by decide,
   (insufficientData_silently_succeeds (fun _ => 0) (fun _ => 0) _ (by decide)).2.1,
   (insufficientData_silently_succeeds (fun _ => 0) (fun _ => 0) _ (by decide)).2.2⟩

/-- C10: `calculateClimatology` sorts the caller's record list in
place: afterwards the list is a permutation of the original, sorted
ascending by `year·1000 + dayOfYear` (the records themselves are the
original ones, fields untouched). -/
theorem calculateClimatology_sorts_caller (sinO cosO : ℚ → ℚ)
    (data : List DailyWeather) :
    ((calculateClimatologyWithState sinO cosO data).2).Perm data ∧
    List.Sorted (fun a b => sortKey a ≤ sortKey b)
      ((calculateClimatologyWithState sinO cosO data).2) := by
  constructor
  · exact List.mergeSort_perm data _
  · have htrans : ∀ a b c : DailyWeather,
        decide (sortKey a ≤ sortKey b) = true →
        decide (sortKey b ≤ sortKey c) = true →
        decide (sortKey a ≤ sortKey c) = true := fun a b c hab hbc =>
      decide_eq_true (le_trans (of_decide_eq_true hab) (of_decide_eq_true hbc))
    have htotal : ∀ a b : DailyWeather,
        (decide (sortKey a ≤ sortKey b) || decide (sortKey b ≤ sortKey a))
          = true := by
      intro a b
      rcases le_total (sortKey a) (sortKey b) with h | h <;> simp [h]
    have hp := List.sorted_mergeSort htrans htotal data
    exact hp.imp (fun h => of_decide_eq_true h)

/-- C4 (counterexample): for the single record `(2020, doy 1)`, day 2
has no matching record, yet the emitted entry's `count` is 1 (the code
substitutes `pVals = [0]` and reports its length), not 0 as
claimed. -/
theorem calculateClimatology_count_counterexample :
    (([⟨2020, 1, 10, 2⟩] : List DailyWeather).filter
        (fun d => decide (d.doy = (2 : ℚ)))) = [] ∧
    Option.map (fun e => e.count)
      ((calculateClimatology (fun _ => 0) (fun _ => 0)
          [⟨2020, 1, 10, 2⟩]).get 2) = some 1 := by
  have hone : ¬((1 : ℚ) = 2) := by norm_num
  constructor
  · simp [List.filter_cons, hone]
  · obtain ⟨lags, hget⟩ := calcClim_get_aux (fun _ => 0) (fun _ => 0)
      [⟨2020, 1, 10, 2⟩] 2 (by norm_num) (by norm_num)
    rw [hget]
    show some ((pValsOf (buildPrecipMap (sortChrono [⟨2020, 1, 10, 2⟩])) 2).length)
      = some 1
    rw [pValsOf_buildPrecipMap]
    have hs : sortChrono [⟨2020, 1, 10, 2⟩] = [⟨2020, 1, 10, 2⟩] := by
      unfold sortChrono
      exact List.mergeSort_singleton _
    rw [if_pos (by rw [hs]; simp [List.filter_cons, hone])]
    rfl

/-- C4 (amended): for every day-of-year in 1..366 with no matching
record the emitted entry has `avgPrecip = 0` and `count = 1` (the
dummy `[0]` group); for a day with matching records `avgPrecip` is the
arithmetic mean of their precipitation values rounded to two decimals,
and `count` is the number of matching records. -/
theorem calculateClimatology_precip (sinO cosO : ℚ → ℚ)
    (data : List DailyWeather) (doy : ℕ) (h1 : 1 ≤ doy) (h2 : doy ≤ 366) :
    ∃ e, (calculateClimatology sinO cosO data).get doy = some e ∧
      e.doy = doy ∧
      e.avgPrecip
        = (if (data.filter (fun d => decide (d.doy = (doy : ℚ)))) = [] then 0
           else round2
             (((data.filter (fun d => decide (d.doy = (doy : ℚ)))).map
                 (fun d => d.precip)).sum
               / ((data.filter (fun d => decide (d.doy = (doy : ℚ)))).length
                   : ℚ))) ∧
      e.count
        = (if (data.filter (fun d => decide (d.doy = (doy : ℚ)))) = [] then 1
           else (data.filter (fun d => decide (d.doy = (doy : ℚ)))).length) := by
  obtain ⟨lags, hget⟩ := calcClim_get_aux sinO cosO data doy h1 h2
  have hperm : List.Perm
      ((sortChrono data).filter (fun d => decide (d.doy = (doy : ℚ))))
      (data.filter (fun d => decide (d.doy = (doy : ℚ)))) := by
    unfold sortChrono
    exact (List.mergeSort_perm data _).filter _
  have hlen : ((sortChrono data).filter
        (fun d => decide (d.doy = (doy : ℚ)))).length
      = (data.filter (fun d => decide (d.doy = (doy : ℚ)))).length :=
    hperm.length_eq
  have hsum : (((sortChrono data).filter
        (fun d => decide (d.doy = (doy : ℚ)))).map (fun d => d.precip)).sum
      = ((data.filter (fun d => decide (d.doy = (doy : ℚ)))).map
          (fun d => d.precip)).sum :=
    (hperm.map _).sum_eq
  have hnil : (((sortChrono data).filter
        (fun d => decide (d.doy = (doy : ℚ)))) = [])
      ↔ ((data.filter (fun d => decide (d.doy = (doy : ℚ)))) = []) := by
    rw [← List.length_eq_zero, ← List.length_eq_zero, hlen]
  refine ⟨_, hget, rfl, ?_, ?_⟩
  · show round2 (avgPrecipOf (buildPrecipMap (sortChrono data)) doy) = _
    unfold avgPrecipOf
    rw [pValsOf_buildPrecipMap]
    by_cases hemp : (data.filter (fun d => decide (d.doy = (doy : ℚ)))) = []
    · rw [if_pos (hnil.2 hemp), if_pos hemp]
      norm_num [round2]
    · rw [if_neg (fun hc => hemp (hnil.1 hc)), if_neg hemp]
      rw [if_neg (by
        rw [List.length_map, hlen]
        intro hc
        exact hemp (List.length_eq_zero.1 hc))]
      rw [hsum, List.length_map, hlen]
  · show (pValsOf (buildPrecipMap (sortChrono data)) doy).length = _
    rw [pValsOf_buildPrecipMap]
    by_cases hemp : (data.filter (fun d => decide (d.doy = (doy : ℚ)))) = []
    · rw [if_pos (hnil.2 hemp), if_pos hemp]
      rfl
    · rw [if_neg (fun hc => hemp (hnil.1 hc)), if_neg hemp,
        List.length_map, hlen]

/-- C4 witness: the single record `(2020, doy 1, precip 2)`; day 1 has
one matching record. -/
theorem calculateClimatology_precip_witness :
    (1 : ℕ) ≤ 1 ∧ (1 : ℕ) ≤ 366 ∧
    ∃ e, (calculateClimatology (fun _ => 0) (fun _ => 0)
        [⟨2020, 1, 10, 2⟩]).get 1 = some e ∧
      e.doy = 1 ∧
      e.avgPrecip
        = (if (([⟨2020, 1, 10, 2⟩] : List DailyWeather).filter
              (fun d => decide (d.doy = ((1 : ℕ) : ℚ)))) = [] then 0
           else round2
             (((([⟨2020, 1, 10, 2⟩] : List DailyWeather).filter
                   (fun d => decide (d.doy = ((1 : ℕ) : ℚ)))).map
                 (fun d => d.precip)).sum
               / ((([⟨2020, 1, 10, 2⟩] : List DailyWeather).filter
                     (fun d => decide (d.doy = ((1 : ℕ) : ℚ)))).length : ℚ))) ∧
      e.count
        = (if (([⟨2020, 1, 10, 2⟩] : List DailyWeather).filter
              (fun d => decide (d.doy = ((1 : ℕ) : ℚ)))) = [] then 1
           else (([⟨2020, 1, 10, 2⟩] : List DailyWeather).filter
               (fun d => decide (d.doy = ((1 : ℕ) : ℚ)))).length) :=
  ⟨le_refl 1, by norm_num,
   calculateClimatology_precip (fun _ => 0) (fun _ => 0)
     [⟨2020, 1, 10, 2⟩] 1 (le_refl 1) (by norm_num)⟩

end NasaWeather
